import Mathlib

/-!
Verification of the brief-normalization and feed-upsert logic of the
ai-news-audio-feed repository.

The Python sources embedded here are `scripts/compose_transcript.py`
(JSON normalization, free-text paragraphing, heading distribution and the
HTML renderer) and `scripts/update_feed.py` (the RSS item upsert).

Conventions of the embedding:
* JSON values are modelled by `JVal` (null / string / integer / array /
  object).  The payloads produced by the language-model call contain only
  these shapes; booleans and floats do not occur in any scenario treated
  below and are omitted from the value universe.
* Python code that can raise (attribute access on a non-string, iterating a
  non-iterable) is modelled in the `Except String` monad; `.error` marks a
  raised exception, `.ok` a normal return.
* Character classes follow Python's ASCII behaviour (`str.strip`,
  `str.lower`, `\s`, `[A-Z]`); the repository's data is ASCII.
* Filesystem interaction ("latest file" discovery, reading the mp3 size,
  the wall-clock) is passed in as explicit arguments, mirroring the spec's
  instruction to treat file discovery as an external collaborator.
-/

/-- JSON-like values as handled by `compose_transcript.normalize_from_json`. -/
inductive JVal where
  | null
  | str (s : String)
  | int (n : Int)
  | arr (xs : List JVal)
  | obj (fields : List (String × JVal))

/-- Python whitespace for `str.strip` and `\s` (ASCII fragment). -/
def pyIsSpace (c : Char) : Bool :=
  c = ' ' ∨ c = '\t' ∨ c = '\n' ∨ c = '\r' ∨ c = '\x0b' ∨ c = '\x0c'

/-- `str.strip()` on an explicit character list. -/
def pyStripChars (cs : List Char) : List Char :=
  ((cs.dropWhile pyIsSpace).reverse.dropWhile pyIsSpace).reverse

/-- `str.strip()`. -/
def pyStripStr (s : String) : String := String.mk (pyStripChars s.data)

/-- Python truthiness of a `JVal` (empty string/array/object, 0 and None are falsy). -/
def truthy : JVal → Bool
  | .null => false
  | .str s => !(s == "")
  | .int n => !(n == 0)
  | .arr xs => !xs.isEmpty
  | .obj fs => !fs.isEmpty

/-- `d.get(key)`: value of the first binding of `key`, `None` when absent. -/
def pyGet (fields : List (String × JVal)) (key : String) : JVal :=
  match fields.find? (fun p => p.1 == key) with
  | some p => p.2
  | none => .null

/-- `(v or "")`: keep a truthy value, otherwise the empty string. -/
def pyOrEmptyStr (v : JVal) : JVal := if truthy v then v else .str ""

/-- `(v or [])`: keep a truthy value, otherwise the empty list. -/
def pyOrEmptyList (v : JVal) : JVal := if truthy v then v else .arr []

/-- `v.strip()`: succeeds on strings, raises `AttributeError` otherwise. -/
def pyStrAttrStrip : JVal → Except String String
  | .str s => .ok (pyStripStr s)
  | _ => .error "AttributeError"

/-- `for x in v`: arrays yield elements, strings their characters, dicts
their keys; `None` and integers raise `TypeError`. -/
def pyIter : JVal → Except String (List JVal)
  | .arr xs => .ok xs
  | .str s => .ok (s.data.map (fun c => .str (String.mk [c])))
  | .obj fs => .ok (fs.map (fun p => .str p.1))
  | .null => .error "TypeError"
  | .int _ => .error "TypeError"

/-- `str(x).isdigit()`: true for non-negative integers and non-empty
all-digit strings. -/
def pyStrIsDigit : JVal → Bool
  | .str s => !s.data.isEmpty ∧ s.data.all Char.isDigit
  | .int n => decide (0 ≤ n)
  | _ => false

/-- `int(x)` on a value that passed `str(x).isdigit()`. -/
def pyIntOfDigit : JVal → Int
  | .str s => Int.ofNat (s.data.foldl (fun a c => a * 10 + (c.toNat - 48)) 0)
  | .int n => n
  | _ => 0

/-- Normalized paragraph: display text plus the citation id list
(`{"text": ..., "sources": [...]}` in the Python dict). -/
structure Para where
  text : String
  sources : List Int
  deriving Repr, DecidableEq

/-- Normalized section: title plus ordered paragraphs. -/
structure Sec where
  title : String
  paragraphs : List Para
  deriving Repr, DecidableEq

/-- Cleaned footnote entry (`{"id": ..., "title": ..., "url": ...}`). -/
structure Footnote where
  id : Int
  title : String
  url : String
  deriving Repr, DecidableEq

/-- The dict returned by `normalize_from_json`. -/
structure NormDoc where
  sections : List Sec
  footnotes : List Footnote
  spoken : String
  deriving Repr, DecidableEq

/-- Footnote loop of `normalize_from_json` (`for i, f in enumerate(fns, start=1)`):
non-dict entries are skipped (the position counter still advances), the id
defaults to the 1-based position when not an integer, and entries whose
stripped url is empty are dropped. -/
def normFootnotes : List JVal → Nat → Except String (List Footnote)
  | [], _ => .ok []
  | .obj fs :: rest, i =>
    match pyStrAttrStrip (pyOrEmptyStr (pyGet fs "title")) with
    | .error e => .error e
    | .ok ttl =>
      match pyStrAttrStrip (pyOrEmptyStr (pyGet fs "url")) with
      | .error e => .error e
      | .ok url =>
        match normFootnotes rest (i + 1) with
        | .error e => .error e
        | .ok tail =>
          .ok (if url ≠ "" then
                ⟨(match pyGet fs "id" with | .int n => n | _ => Int.ofNat i), ttl, url⟩ :: tail
              else tail)
  | _ :: rest, i => normFootnotes rest (i + 1)

/-- `[int(x) for x in p.get("sources") or [] if str(x).isdigit()]`. -/
def parseSources (v : JVal) : Except String (List Int) :=
  match pyIter (pyOrEmptyList v) with
  | .error e => .error e
  | .ok xs => .ok ((xs.filter pyStrIsDigit).map pyIntOfDigit)

/-- Paragraph loop of `normalize_from_json`: strings become citation-free
paragraphs, dicts contribute their stripped `text` and digit-filtered
`sources`, anything else is skipped; paragraphs with empty text are dropped. -/
def normParas : List JVal → Except String (List Para)
  | [] => .ok []
  | .str s :: rest =>
    (match normParas rest with
     | .error e => .error e
     | .ok tail => .ok (if pyStripStr s ≠ "" then ⟨pyStripStr s, []⟩ :: tail else tail))
  | .obj fs :: rest =>
    match pyStrAttrStrip (pyOrEmptyStr (pyGet fs "text")) with
    | .error e => .error e
    | .ok t =>
      match parseSources (pyGet fs "sources") with
      | .error e => .error e
      | .ok srcs =>
        match normParas rest with
        | .error e => .error e
        | .ok tail => .ok (if t ≠ "" then ⟨t, srcs⟩ :: tail else tail)
  | _ :: rest => normParas rest

/-- Section loop of `normalize_from_json`: a bare string becomes a section
with that title and no paragraphs, a dict contributes its stripped title
and normalized paragraph list, anything else is skipped. -/
def normSections : List JVal → Except String (List Sec)
  | [] => .ok []
  | .str s :: rest =>
    (match normSections rest with
     | .error e => .error e
     | .ok tail => .ok (⟨pyStripStr s, []⟩ :: tail))
  | .obj fs :: rest =>
    match pyStrAttrStrip (pyOrEmptyStr (pyGet fs "title")) with
    | .error e => .error e
    | .ok title =>
      match pyIter (pyOrEmptyList (pyGet fs "paragraphs")) with
      | .error e => .error e
      | .ok ps =>
        match normParas ps with
        | .error e => .error e
        | .ok paras =>
          match normSections rest with
          | .error e => .error e
          | .ok tail => .ok (⟨title, paras⟩ :: tail)
  | _ :: rest => normSections rest

/-- `compose_transcript.normalize_from_json`: builds the output dict field
by field — stripped `spoken`, cleaned footnotes, normalized sections. -/
def normalize_from_json (data : List (String × JVal)) : Except String NormDoc :=
  match pyStrAttrStrip (pyOrEmptyStr (pyGet data "spoken")) with
  | .error e => .error e
  | .ok spoken =>
    match pyIter (pyOrEmptyList (pyGet data "footnotes")) with
    | .error e => .error e
    | .ok fns =>
      match normFootnotes fns 1 with
      | .error e => .error e
      | .ok footnotes =>
        match pyIter (pyOrEmptyList (pyGet data "sections")) with
        | .error e => .error e
        | .ok secs =>
          match normSections secs with
          | .error e => .error e
          | .ok sections => .ok ⟨sections, footnotes, spoken⟩

/-- The five standard headings of `compose_transcript.py`. -/
def HEADINGS : List String :=
  [ "New Products & Capabilities"
  , "Strategic Business Impact"
  , "Implementation Opportunities"
  , "Market Dynamics"
  , "Talent Market Shifts" ]

/-- `str.lower()` / `str.upper()` on the ASCII data handled here. -/
def pyLower (s : String) : String := String.mk (s.data.map Char.toLower)

/-- Character-index of the first occurrence of `pat` (Python `str.find`),
`none` standing for Python's `-1`. -/
def findSubAux (pat : List Char) (i : Nat) : List Char → Option Nat
  | [] => none
  | c :: rest => if pat.isPrefixOf (c :: rest) then some i else findSubAux pat (i + 1) rest

/-- `s.find(pat)` for a non-empty pattern. -/
def findSub (s pat : String) : Option Nat := findSubAux pat.data 0 s.data

/-- Whether `pat` occurs in `s` (used to state facts about rendered HTML). -/
def hasSub (s pat : String) : Bool := (findSub s pat).isSome

/-- `re.sub(r'[ \t]+', ' ', ·)`: each run of spaces/tabs becomes one space. -/
def collapseSpaces : List Char → List Char
  | [] => []
  | [c] => if c = ' ' ∨ c = '\t' then [' '] else [c]
  | c :: d :: rest =>
    if (c = ' ' ∨ c = '\t') ∧ (d = ' ' ∨ d = '\t') then collapseSpaces (d :: rest)
    else (if c = ' ' ∨ c = '\t' then ' ' else c) :: collapseSpaces (d :: rest)

/-- First index of a newline in a character list. -/
def idxOfNl : List Char → Option Nat
  | [] => none
  | c :: rest => if c = '\n' then some 0 else (idxOfNl rest).map (· + 1)

/-- Resolve a pending whitespace run for the `\n\s*\n` separator.  `buf` is
the run in reverse order, its last element the newline that opened it.  A
match needs a second newline; greedy `\s*` plus the final mandatory `\n`
make the match end at the run's last newline, so the characters after it
(`buf.take k`, still reversed) carry over into the next piece. -/
def resolveRun (buf : List Char) : Option (List Char) :=
  match idxOfNl buf with
  | some k => if k + 1 < buf.length then some (buf.take k) else none
  | none => none

/-- Close out `re.split(r'\n\s*\n', ·)` at end of input. -/
def resolveEnd (acc buf : List Char) : List (List Char) :=
  match resolveRun buf with
  | some carry => [acc.reverse, carry.reverse]
  | none => [(buf ++ acc).reverse]

/-- Scanner for `re.split(r'\n\s*\n', ·)`.  `acc` is the current piece
reversed; `buf`, when present, is a whitespace run opened by a newline
(reversed).  A run containing a second newline is a separator match; a run
without one is ordinary text. -/
def sblAux : List Char → List Char → Option (List Char) → List (List Char)
  | [], acc, none => [acc.reverse]
  | [], acc, some buf => resolveEnd acc buf
  | c :: rest, acc, none =>
    if c = '\n' then sblAux rest acc (some ['\n'])
    else sblAux rest (c :: acc) none
  | c :: rest, acc, some buf =>
    if pyIsSpace c then sblAux rest acc (some (c :: buf))
    else
      match resolveRun buf with
      | some carry => acc.reverse :: sblAux rest (c :: carry) none
      | none => sblAux rest (c :: (buf ++ acc)) none

/-- `re.split(r'\n\s*\n', text)`. -/
def splitBlankLines (cs : List Char) : List (List Char) := sblAux cs [] none

/-- Sentence terminators of `_SENT_SPLIT`'s look-behind `(?<=[.!?])`. -/
def sentEnd (c : Char) : Bool := c = '.' ∨ c = '!' ∨ c = '?'

/-- Look-ahead `(?=[A-Z(])` of `_SENT_SPLIT`. -/
def upperOrParen (c : Char) : Bool := ('A' ≤ c ∧ c ≤ 'Z') ∨ c = '('

/-- Scanner for `_SENT_SPLIT.split`, the regex `(?<=[.!?])\s+(?=[A-Z(])`:
a maximal whitespace run directly after `.`/`!`/`?` and directly before an
upper-case letter or `(` separates sentences.  `acc` is the current piece
reversed, `prev` the previous character, `buf` a pending whitespace run
opened after a sentence terminator (reversed). -/
def ssAux : List Char → List Char → Char → Option (List Char) → List (List Char)
  | [], acc, _, none => [acc.reverse]
  | [], acc, _, some buf => [(buf ++ acc).reverse]
  | c :: rest, acc, prev, none =>
    if pyIsSpace c ∧ sentEnd prev then ssAux rest acc prev (some [c])
    else ssAux rest (c :: acc) c none
  | c :: rest, acc, prev, some buf =>
    if pyIsSpace c then ssAux rest acc prev (some (c :: buf))
    else if upperOrParen c then acc.reverse :: ssAux rest [c] c none
    else ssAux rest (c :: (buf ++ acc)) c none

/-- `_SENT_SPLIT.split(text)`. -/
def sentSplit (cs : List Char) : List (List Char) := ssAux cs [] 'x' none

/-- Sentence-batching loop of `paragraphs_from_free_text`: flush the buffer
into a space-joined paragraph whenever it reaches 4 sentences, and once
more at the end when non-empty. -/
def batchAux (out buf : List String) : List String → List String
  | [] => if buf.isEmpty then out.reverse else (String.intercalate " " buf :: out).reverse
  | s :: rest =>
    if buf.length + 1 ≥ 4 then batchAux (String.intercalate " " (buf ++ [s]) :: out) [] rest
    else batchAux out (buf ++ [s]) rest

/-- `compose_transcript.paragraphs_from_free_text`: cut a trailing
`"\nsources:"` block (located case-insensitively), collapse spaces/tabs in
the stripped text, split at blank lines; with at least 3 blocks keep them,
otherwise split into sentences and regroup 4 per paragraph. -/
def paragraphs_from_free_text (text : String) : List String :=
  if text = "" then []
  else
    let cs := text.data
    let cs := match findSubAux (pyLower "\nsources:").data 0 (cs.map Char.toLower) with
      | some cut => cs.take cut
      | none => cs
    let cs := collapseSpaces (pyStripChars cs)
    let blocks := (((splitBlankLines cs).map pyStripChars).filter (· ≠ [])).map String.mk
    if blocks.length ≥ 3 then blocks
    else
      let sents := (((sentSplit cs).map pyStripChars).filter (· ≠ [])).map String.mk
      batchAux [] [] sents

/-- Bucket-filling loop of `distribute_across_headings`
(`buckets[i % len(HEADINGS)].append({"text": p, "sources": []})`). -/
def fillBuckets : List String → Nat → List (List Para) → List (List Para)
  | [], _, buckets => buckets
  | p :: rest, i, buckets =>
    fillBuckets rest (i + 1)
      (buckets.set (i % HEADINGS.length)
        ((buckets.getD (i % HEADINGS.length) []) ++ [⟨p, []⟩]))

/-- `compose_transcript.distribute_across_headings`: an empty paragraph
list yields the five headings with no paragraphs; otherwise paragraph `i`
goes into bucket `i % 5` and the buckets are paired with the headings. -/
def distribute_across_headings (paras : List String) : List Sec :=
  if paras.isEmpty then HEADINGS.map (fun t => ⟨t, []⟩)
  else
    let buckets := fillBuckets paras 0 (List.replicate HEADINGS.length [])
    (List.range HEADINGS.length).map (fun i => ⟨HEADINGS.getD i "", buckets.getD i []⟩)

/-- Effective spoken text used by `compose_transcript.main`'s fallback:
the normalized `spoken` field, or the latest transcript `.txt` (passed here
as an optional external input) when `spoken` is empty. -/
def effectiveSpoken (nd : NormDoc) (txt : Option String) : String :=
  if nd.spoken = "" then (match txt with | some t => t | none => nd.spoken)
  else nd.spoken

/-- Section-selection logic of `compose_transcript.main` (lines 204-224):
normalize the JSON; when some section has a paragraph use the normalized
sections, otherwise distribute the free-text paragraphs of the effective
spoken text across the standard headings. -/
def composeSections (data : List (String × JVal)) (txt : Option String) :
    Except String (List Sec) :=
  match normalize_from_json data with
  | .error e => .error e
  | .ok nd =>
    if nd.sections.any (fun sec => 0 < sec.paragraphs.length) then .ok nd.sections
    else .ok (distribute_across_headings (paragraphs_from_free_text (effectiveSpoken nd txt)))

/-- All paragraph texts of a section list, in document order. -/
def paragraphTexts (secs : List Sec) : List String :=
  ((secs.map Sec.paragraphs).flatten).map Para.text

/-- `html.escape` (quote=True) on a single character. -/
def htmlEscapeChar (c : Char) : List Char :=
  if c = '&' then "&amp;".data
  else if c = '<' then "&lt;".data
  else if c = '>' then "&gt;".data
  else if c = '"' then "&quot;".data
  else if c = '\'' then "&#x27;".data
  else [c]

/-- `html.escape(s)` with the default quoting. -/
def htmlEscape (s : String) : String :=
  String.mk (s.data.foldr (fun c acc => htmlEscapeChar c ++ acc) [])

/-- `str.upper()` on the ASCII data handled here. -/
def pyUpper (s : String) : String := String.mk (s.data.map Char.toUpper)

/-- Superscript fragment of `build_html`:
`"<sup>" + ",".join(str(int(s)) for s in srcs if str(s).isdigit()) + "</sup>"`
when the source list is non-empty. -/
def supFor (srcs : List Int) : String :=
  if srcs.isEmpty then ""
  else
    "<sup>"
      ++ String.intercalate "," ((srcs.filter (fun s => pyStrIsDigit (.int s))).map toString)
      ++ "</sup>"

/-- One paragraph of `build_html`: skipped when the stripped text is empty,
otherwise a `<p>` with the escaped text and the superscript markers. -/
def paraHtml (p : Para) : String :=
  let text := pyStripStr p.text
  let sup := if p.sources.isEmpty then "" else supFor p.sources
  if text ≠ "" then "<p style='margin:0 0 18px 0'>" ++ htmlEscape text ++ sup ++ "</p>"
  else ""

/-- One section of `build_html`: optional bold upper-cased title, then the
paragraphs. -/
def secHtml (sec : Sec) : String :=
  (if pyStripStr sec.title ≠ "" then
    "<p style='margin:0 0 8px 0'><strong>" ++ htmlEscape (pyUpper (pyStripStr sec.title))
      ++ "</strong></p>"
  else "")
  ++ String.join (sec.paragraphs.map paraHtml)

/-- One footnote line of `build_html` (the normalized table always carries
an integer id, so the `None` label branch of the Python code cannot fire). -/
def footnoteHtml (f : Footnote) : String :=
  let ttl := pyStripStr f.title
  let url := pyStripStr f.url
  if url = "" then ""
  else
    let label := "[" ++ toString f.id ++ "]"
    if ttl ≠ "" then
      "<li>" ++ label ++ " " ++ htmlEscape ttl ++ " — <a href=\"" ++ htmlEscape url
        ++ "\">" ++ htmlEscape url ++ "</a></li>"
    else
      "<li>" ++ label ++ " <a href=\"" ++ htmlEscape url ++ "\">" ++ htmlEscape url
        ++ "</a></li>"

/-- `compose_transcript.build_html`. -/
def build_html (sections : List Sec) (footnotes : List Footnote) : String :=
  "<div style=\"font-family:-apple-system,BlinkMacSystemFont,'Segoe UI',Roboto,Arial,sans-serif;font-size:15px;line-height:1.6;\">"
  ++ String.join (sections.map secHtml)
  ++ (if footnotes.isEmpty then ""
      else
        "<hr style='margin:8px 0;border:none;border-top:1px solid #e4e7ef'>"
        ++ "<p style='margin:0 0 6px 0'><strong>Sources</strong></p><ul style='margin:0 0 0 18px;padding:0'>"
        ++ String.join (footnotes.map footnoteHtml)
        ++ "</ul>")
  ++ "</div>"

/-- Value of a digit string. -/
def digitsToNat (cs : List Char) : Nat := cs.foldl (fun a c => a * 10 + (c.toNat - 48)) 0

/-- Gregorian leap-year rule (as used by `datetime`). -/
def isLeap (y : Nat) : Bool := (y % 4 = 0 ∧ y % 100 ≠ 0) ∨ y % 400 = 0

/-- Length of a month, matching `datetime`'s validation. -/
def daysInMonth (y m : Nat) : Nat :=
  if m = 2 then (if isLeap y then 29 else 28)
  else if m = 4 ∨ m = 6 ∨ m = 9 ∨ m = 11 then 30 else 31

/-- `datetime.strptime(stamp, "%Y%m%d")` on the 8-digit date stamps used by
the pipeline: 4-digit year, 2-digit month, 2-digit day, validated as a real
calendar date; any other string is treated as a parse failure (raising
`ValueError` in Python, caught by the callers' `except` blocks). -/
def parseYYYYMMDD (s : String) : Option (Nat × Nat × Nat) :=
  let cs := s.data
  if cs.length = 8 ∧ cs.all Char.isDigit then
    let y := digitsToNat (cs.take 4)
    let m := digitsToNat ((cs.drop 4).take 2)
    let d := digitsToNat (cs.drop 6)
    if 1 ≤ y ∧ 1 ≤ m ∧ m ≤ 12 ∧ 1 ≤ d ∧ d ≤ daysInMonth y m then some (y, m, d) else none
  else none

/-- Days before January 1 of year `y` in the proleptic Gregorian calendar
(`datetime.date.toordinal` arithmetic). -/
def daysBeforeYear (y : Nat) : Nat :=
  let yp := y - 1
  365 * yp + yp / 4 - yp / 100 + yp / 400

/-- Days in year `y` before month `m`. -/
def daysBeforeMonth (y m : Nat) : Nat :=
  ((List.range (m - 1)).map (fun i => daysInMonth y (i + 1))).sum

/-- `datetime.date(y, m, d).toordinal()`. -/
def dateOrdinal (y m d : Nat) : Nat := daysBeforeYear y + daysBeforeMonth y m + d

/-- `%a` weekday abbreviations, Monday first (ordinal 1 is a Monday). -/
def dayNames : List String := ["Mon", "Tue", "Wed", "Thu", "Fri", "Sat", "Sun"]

/-- `%b` month abbreviations. -/
def monthNames : List String :=
  ["Jan", "Feb", "Mar", "Apr", "May", "Jun", "Jul", "Aug", "Sep", "Oct", "Nov", "Dec"]

/-- `strftime("%a")` for a validated date. -/
def weekdayAbbrev (y m d : Nat) : String := dayNames.getD ((dateOrdinal y m d + 6) % 7) ""

/-- `strftime("%b")`. -/
def monthAbbrev (m : Nat) : String := monthNames.getD (m - 1) ""

/-- Zero-padded 2-digit field (`%d`). -/
def pad2 (n : Nat) : String := if n < 10 then "0" ++ toString n else toString n

/-- Zero-padded 4-digit field (`%Y`).  glibc's `strftime` leaves years
below 1000 unpadded; the pipeline's date stamps all carry 4-digit years in
the range where the two renderings agree. -/
def pad4 (n : Nat) : String :=
  if n < 10 then "000" ++ toString n
  else if n < 100 then "00" ++ toString n
  else if n < 1000 then "0" ++ toString n
  else toString n

/-- `update_feed.pretty_pubdate_from_stamp`: format the parsed stamp as an
RFC-2822 date at midnight GMT; on a parse failure fall back to
`rfc2822_now_gmt()`, whose wall-clock result is the `now` argument here. -/
def pretty_pubdate_from_stamp (stamp now : String) : String :=
  match parseYYYYMMDD stamp with
  | some (y, m, d) =>
    weekdayAbbrev y m d ++ ", " ++ pad2 d ++ " " ++ monthAbbrev m ++ " " ++ pad4 y
      ++ " 00:00:00 GMT"
  | none => now

/-- `update_feed.nice_title_from_stamp`. -/
def nice_title_from_stamp (stamp : String) : String :=
  match parseYYYYMMDD stamp with
  | some (y, m, d) =>
    "AI Executive Brief - " ++ pad2 d ++ " " ++ monthAbbrev m ++ ", " ++ pad4 y
  | none => "AI Executive Brief - " ++ stamp

/-- Strip `pat` from the front of a character list, returning the remainder. -/
def stripPrefixChars : List Char → List Char → Option (List Char)
  | [], l => some l
  | _, [] => none
  | p :: ps, c :: cs => if p = c then stripPrefixChars ps cs else none

/-- Replace every non-overlapping occurrence of `pat`, scanning left to
right (Python `str.replace`).  The fuel argument, one more than the input
length, bounds the recursion; each step consumes at least one character, so
the fuel never runs out on the designated start value. -/
def pyReplaceAux : Nat → List Char → List Char → List Char → List Char
  | 0, _, _, l => l
  | _ + 1, _, _, [] => []
  | fuel + 1, pat, rep, c :: rest =>
    match stripPrefixChars pat (c :: rest) with
    | some rem => rep ++ pyReplaceAux fuel pat rep rem
    | none => c :: pyReplaceAux fuel pat rep rest

/-- `s.replace(pat, rep)` for a non-empty pattern. -/
def pyReplace (s pat rep : String) : String :=
  if pat = "" then s
  else String.mk (pyReplaceAux (s.data.length + 1) pat.data rep.data s.data)

/-- `guid_text = mp3_basename.replace(".mp3", "")` (update_feed.py line 123). -/
def guidTextOf (basename : String) : String := pyReplace basename ".mp3" ""

/-- `PAGE_BASE_URL` default of update_feed.py (the environment override is
out of scope for the claims treated here). -/
def BASE_URL : String := "https://kyledeguire.github.io/ai-news-audio-feed"

/-- One `<item>` element of the feed, with the fields `update_feed.main`
constructs. -/
structure Item where
  title : String
  description : String
  link : String
  enclosureUrl : String
  enclosureLength : String
  enclosureType : String
  pubDate : String
  guid : String
  guidIsPermaLink : String
  itunesExplicit : String
  itunesEpisodeType : String
  deriving Repr, DecidableEq

/-- A direct child of the `<channel>` element: either a metadata element
(title, description, lastBuildDate, ...) or an `<item>`. -/
inductive ChElem where
  | meta (tag text : String)
  | item (it : Item)
  deriving Repr, DecidableEq

/-- The parsed `<channel>` of feed.xml as its ordered child list. -/
structure Channel where
  children : List ChElem
  deriving Repr, DecidableEq

/-- Projection of a child to an item. -/
def itemOf : ChElem → Option Item
  | .item it => some it
  | .meta _ _ => none

/-- The ordered `<item>` list of the channel (`channel.findall("item")`). -/
def Channel.items (ch : Channel) : List Item := ch.children.filterMap itemOf

/-- The freshly constructed `<item>` of `update_feed.main` (lines 148-174). -/
def newItem (stamp mp3Basename : String) (mp3Size : Nat) (now : String) : Item :=
  { title := nice_title_from_stamp stamp
  , description := "Executive Briefing: AI Market Trends and Strategic Insights"
  , link := BASE_URL ++ "/"
  , enclosureUrl := BASE_URL ++ "/audio/" ++ mp3Basename
  , enclosureLength := toString mp3Size
  , enclosureType := "audio/mpeg"
  , pubDate := pretty_pubdate_from_stamp stamp now
  , guid := guidTextOf mp3Basename
  , guidIsPermaLink := "false"
  , itunesExplicit := "false"
  , itunesEpisodeType := "full" }

/-- `channel.insert(list(channel).index(first_item), item)` when an item
exists, `channel.append(item)` otherwise (update_feed.main lines 176-184):
the new item lands directly before the first existing `<item>`. -/
def insertNewItemElem (x : Item) : List ChElem → List ChElem
  | [] => [.item x]
  | .item it :: rest => .item x :: .item it :: rest
  | .meta tag txt :: rest => .meta tag txt :: insertNewItemElem x rest

/-- `last = channel.find("lastBuildDate") ... last.text = now`: overwrite
the first `<lastBuildDate>` child, appending one when absent. -/
def setLastBuildDate (now : String) : List ChElem → List ChElem
  | [] => [.meta "lastBuildDate" now]
  | .meta tag txt :: rest =>
    if tag = "lastBuildDate" then .meta tag now :: rest
    else .meta tag txt :: setLastBuildDate now rest
  | .item it :: rest => .item it :: setLastBuildDate now rest

/-- The feed mutation of `update_feed.main` (lines 122-197), given the
resolved stamp, the chosen mp3's basename and byte size, the wall-clock
string `now` and the parsed channel.  When the derived guid already occurs
among the items the run only refreshes `lastBuildDate` and exits 0
("skipping append"); otherwise the fresh item is inserted before the first
existing item, `lastBuildDate` is refreshed, and the run exits 0.  The
returned number is the process exit status; the returned channel is what
`tree.write` persists. -/
def upsertChannel (stamp mp3Basename : String) (mp3Size : Nat) (now : String)
    (ch : Channel) : Channel × Nat :=
  let guidText := guidTextOf mp3Basename
  if guidText ∈ ch.items.map Item.guid then
    (⟨setLastBuildDate now ch.children⟩, 0)
  else
    (⟨setLastBuildDate now (insertNewItemElem (newItem stamp mp3Basename mp3Size now)
        ch.children)⟩, 0)

/-- Entry checks of `update_feed.main` (lines 104-120): a missing stamp or
a missing mp3 aborts with exit status 1 before anything is written, leaving
the feed exactly as it was; otherwise the upsert runs.  The mp3 argument
carries the basename and the byte size reported by `stat` — the code
performs no validation on the size. -/
def runFeedUpdate (stamp : Option String) (mp3 : Option (String × Nat)) (now : String)
    (ch : Channel) : Channel × Nat :=
  match stamp with
  | none => (ch, 1)
  | some st =>
    match mp3 with
    | none => (ch, 1)
    | some (name, size) => upsertChannel st name size now ch

/-- Inserting before the first item puts the new item at the head of the
item list, with all previously present items following in order. -/
theorem items_insertNewItemElem (x : Item) (l : List ChElem) :
    (insertNewItemElem x l).filterMap itemOf = x :: l.filterMap itemOf := by
  induction l with
  | nil => rfl
  | cons e rest ih =>
    cases e with
    | item it => simp [insertNewItemElem, itemOf]
    | meta tag txt => simp [insertNewItemElem, itemOf, ih]

/-- Refreshing `lastBuildDate` touches no `<item>` child. -/
theorem items_setLastBuildDate (now : String) (l : List ChElem) :
    (setLastBuildDate now l).filterMap itemOf = l.filterMap itemOf := by
  induction l with
  | nil => rfl
  | cons e rest ih =>
    cases e with
    | item it => simp [setLastBuildDate, itemOf, ih]
    | meta tag txt =>
      by_cases h : tag = "lastBuildDate" <;> simp [setLastBuildDate, h, itemOf, ih]

/-- When the derived guid is already present, the run leaves the item list
unchanged, refreshes only `lastBuildDate`, and exits 0. -/
theorem upsertChannel_mem (stamp name : String) (size : Nat) (now : String) (ch : Channel)
    (h : guidTextOf name ∈ ch.items.map Item.guid) :
    (upsertChannel stamp name size now ch).1.items = ch.items ∧
      (upsertChannel stamp name size now ch).1.children = setLastBuildDate now ch.children ∧
      (upsertChannel stamp name size now ch).2 = 0 := by
  simp only [upsertChannel, if_pos h]
  exact ⟨items_setLastBuildDate now ch.children, trivial, trivial⟩

/-- When the derived guid is new, the freshly constructed item is placed at
the front of the item list and everything already present is preserved. -/
theorem upsertChannel_not_mem (stamp name : String) (size : Nat) (now : String) (ch : Channel)
    (h : guidTextOf name ∉ ch.items.map Item.guid) :
    (upsertChannel stamp name size now ch).1.items
        = newItem stamp name size now :: ch.items ∧
      (upsertChannel stamp name size now ch).2 = 0 := by
  simp only [upsertChannel, if_neg h]
  refine ⟨?_, trivial⟩
  show (setLastBuildDate now (insertNewItemElem (newItem stamp name size now)
      ch.children)).filterMap itemOf = _
  rw [items_setLastBuildDate, items_insertNewItemElem]
  rfl

/-- A feed entry as an earlier (different) run could have published it:
same guid as the 2025-09-16 episode, all other fields distinct from what a
fresh construction would produce. -/
def oldFeedItem : Item :=
  { title := "Old Title"
  , description := "Old Description"
  , link := "old-link"
  , enclosureUrl := "old-url"
  , enclosureLength := "123"
  , enclosureType := "audio/mpeg"
  , pubDate := "Mon, 01 Jan 2024 00:00:00 GMT"
  , guid := "ai_news_20250916"
  , guidIsPermaLink := "false"
  , itunesExplicit := "false"
  , itunesEpisodeType := "full" }

/-- A channel already containing `oldFeedItem`. -/
def demoChannel : Channel :=
  ⟨[.meta "title" "AI News Weekly -- Executive Briefing", .item oldFeedItem]⟩

/-- A channel with metadata and no items. -/
def emptyChannel : Channel := ⟨[.meta "title" "AI News Weekly -- Executive Briefing"]⟩

/-- C2, counterexample: upserting the 2025-09-16 episode into a feed that
already holds an entry with guid `ai_news_20250916` leaves that old entry
in the list untouched — it is not replaced by the freshly constructed
entry, which differs from it. -/
theorem c2_counterexample :
    (upsertChannel "20250916" "ai_news_20250916.mp3" 999
        "Tue, 16 Sep 2025 12:00:00 GMT" demoChannel).1.items = [oldFeedItem] ∧
      oldFeedItem ≠ newItem "20250916" "ai_news_20250916.mp3" 999
        "Tue, 16 Sep 2025 12:00:00 GMT" := by
  constructor
  · rfl
  · decide

/-- C2 (amended): upserting an episode descriptor whose guid already occurs
in the feed leaves the item list entirely unchanged — the existing entry is
kept as-is in its position and no entry is added or replaced; the run only
refreshes the channel's `lastBuildDate` and exits 0. -/
theorem c2_existing_guid_skips (stamp name : String) (size : Nat) (now : String)
    (ch : Channel) (h : guidTextOf name ∈ ch.items.map Item.guid) :
    (upsertChannel stamp name size now ch).1.items = ch.items ∧
      (upsertChannel stamp name size now ch).1.children = setLastBuildDate now ch.children ∧
      (upsertChannel stamp name size now ch).2 = 0 :=
  upsertChannel_mem stamp name size now ch h

/-- C2, witness: the amended statement at the concrete duplicate-guid feed. -/
theorem c2_witness :
    guidTextOf "ai_news_20250916.mp3" ∈ demoChannel.items.map Item.guid ∧
      ((upsertChannel "20250916" "ai_news_20250916.mp3" 999
          "Tue, 16 Sep 2025 12:00:00 GMT" demoChannel).1.items = demoChannel.items ∧
        (upsertChannel "20250916" "ai_news_20250916.mp3" 999
          "Tue, 16 Sep 2025 12:00:00 GMT" demoChannel).1.children
            = setLastBuildDate "Tue, 16 Sep 2025 12:00:00 GMT" demoChannel.children ∧
        (upsertChannel "20250916" "ai_news_20250916.mp3" 999
          "Tue, 16 Sep 2025 12:00:00 GMT" demoChannel).2 = 0) :=
  ⟨by decide, c2_existing_guid_skips "20250916" "ai_news_20250916.mp3" 999
      "Tue, 16 Sep 2025 12:00:00 GMT" demoChannel (by decide)⟩

/-- C3, counterexample: a zero-byte audio file is not rejected — the run
exits 0 and the feed gains an entry whose enclosure length is "0". -/
theorem c3_counterexample :
    (runFeedUpdate (some "20250916") (some ("ai_news_20250916.mp3", 0))
        "Tue, 16 Sep 2025 12:00:00 GMT" emptyChannel).2 = 0 ∧
      (runFeedUpdate (some "20250916") (some ("ai_news_20250916.mp3", 0))
        "Tue, 16 Sep 2025 12:00:00 GMT" emptyChannel).1.items.map Item.enclosureLength
          = ["0"] ∧
      (runFeedUpdate (some "20250916") (some ("ai_news_20250916.mp3", 0))
        "Tue, 16 Sep 2025 12:00:00 GMT" emptyChannel).1 ≠ emptyChannel := by
  refine ⟨rfl, rfl, ?_⟩
  decide

/-- C3 (amended): when no mp3 can be resolved the run aborts with exit
status 1 and the feed is left unchanged; but the audio file's byte size is
never validated — for every size, including 0, the upsert proceeds and
exits 0. -/
theorem c3_missing_file_aborts_size_unchecked :
    (∀ (stamp : Option String) (now : String) (ch : Channel),
        runFeedUpdate stamp none now ch = (ch, 1)) ∧
      (∀ (stamp name : String) (size : Nat) (now : String) (ch : Channel),
        (runFeedUpdate (some stamp) (some (name, size)) now ch).2 = 0) := by
  constructor
  · intro stamp now ch
    cases stamp <;> rfl
  · intro stamp name size now ch
    simp only [runFeedUpdate, upsertChannel]
    split <;> rfl

/-- C9: upserting an episode whose guid is not yet in the feed places the
freshly constructed entry at the front of the item list; every pre-existing
entry keeps its relative position and all of its fields (the tail of the
resulting item list is exactly the previous item list). -/
theorem c9_new_guid_inserted_front (stamp name : String) (size : Nat) (now : String)
    (ch : Channel) (h : guidTextOf name ∉ ch.items.map Item.guid) :
    (upsertChannel stamp name size now ch).1.items
        = newItem stamp name size now :: ch.items ∧
      (upsertChannel stamp name size now ch).2 = 0 :=
  upsertChannel_not_mem stamp name size now ch h

/-- C9, witness: inserting the new 2025-09-23 episode B while episode A
(guid `ai_news_20250916`) is present yields the order [B, A] with A
untouched. -/
theorem c9_witness :
    guidTextOf "ai_news_20250923.mp3" ∉ demoChannel.items.map Item.guid ∧
      ((upsertChannel "20250923" "ai_news_20250923.mp3" 777
          "Tue, 23 Sep 2025 12:00:00 GMT" demoChannel).1.items
            = newItem "20250923" "ai_news_20250923.mp3" 777
                "Tue, 23 Sep 2025 12:00:00 GMT" :: demoChannel.items ∧
        (upsertChannel "20250923" "ai_news_20250923.mp3" 777
          "Tue, 23 Sep 2025 12:00:00 GMT" demoChannel).2 = 0) :=
  ⟨by decide, c9_new_guid_inserted_front "20250923" "ai_news_20250923.mp3" 777
      "Tue, 23 Sep 2025 12:00:00 GMT" demoChannel (by decide)⟩

/-- C8: running the upsert twice with the same episode descriptor is
idempotent.  The second run recognizes the guid and leaves the item list
byte-identical (so the episode's pubDate, guid and enclosure are unchanged),
the entry count does not grow on the second run, and — because `pubDate` is
derived from the stamp, not the wall clock — the entry constructed on the
first run does not depend on the run's wall-clock time at all. -/
theorem c8_upsert_idempotent (stamp name : String) (size : Nat) (now1 now2 : String)
    (ch : Channel) (hnew : guidTextOf name ∉ ch.items.map Item.guid)
    (hstamp : (parseYYYYMMDD stamp).isSome) :
    (upsertChannel stamp name size now2 (upsertChannel stamp name size now1 ch).1).1.items
        = (upsertChannel stamp name size now1 ch).1.items ∧
      (upsertChannel stamp name size now1 ch).1.items.length = ch.items.length + 1 ∧
      newItem stamp name size now1 = newItem stamp name size now2 := by
  obtain ⟨h1, -⟩ := upsertChannel_not_mem stamp name size now1 ch hnew
  have hmem : guidTextOf name
      ∈ (upsertChannel stamp name size now1 ch).1.items.map Item.guid := by
    rw [h1, List.map_cons]
    exact List.mem_cons_self _ _
  obtain ⟨h2, -, -⟩ := upsertChannel_mem stamp name size now2 _ hmem
  refine ⟨h2, by rw [h1]; simp, ?_⟩
  obtain ⟨⟨y, m, d⟩, hp⟩ := Option.isSome_iff_exists.mp hstamp
  simp [newItem, pretty_pubdate_from_stamp, hp]

/-- C8, witness: idempotence at the concrete 2025-09-16 episode against a
feed that does not yet contain it, with two different wall-clock strings. -/
theorem c8_witness :
    guidTextOf "ai_news_20250916.mp3" ∉ emptyChannel.items.map Item.guid ∧
      (parseYYYYMMDD "20250916").isSome = true ∧
      ((upsertChannel "20250916" "ai_news_20250916.mp3" 999 "clock B"
          (upsertChannel "20250916" "ai_news_20250916.mp3" 999 "clock A"
            emptyChannel).1).1.items
          = (upsertChannel "20250916" "ai_news_20250916.mp3" 999 "clock A"
              emptyChannel).1.items ∧
        (upsertChannel "20250916" "ai_news_20250916.mp3" 999 "clock A"
          emptyChannel).1.items.length = emptyChannel.items.length + 1 ∧
        newItem "20250916" "ai_news_20250916.mp3" 999 "clock A"
          = newItem "20250916" "ai_news_20250916.mp3" 999 "clock B") :=
  ⟨by decide, by decide,
    c8_upsert_idempotent "20250916" "ai_news_20250916.mp3" 999 "clock A" "clock B"
      emptyChannel (by decide) (by decide)⟩

/-- The `sections` value with one section whose single paragraph cites
source id 9. -/
def c1Sections : JVal :=
  .arr [.obj
    [ ("title", .str "T")
    , ("paragraphs", .arr [.obj
        [("text", .str "Hi"), ("sources", .arr [.int 9])]]) ]]

/-- Payload citing source id 9 over an arbitrary footnote list. -/
def c1Data (fns : List JVal) : List (String × JVal) :=
  [("sections", c1Sections), ("footnotes", .arr fns)]

/-- C1, counterexample: a paragraph citing source id 9 while the footnote
table is empty (so no footnote with id 9 exists) keeps 9 in its citation
set — the dangling citation is retained, not dropped. -/
theorem c1_counterexample :
    normalize_from_json (c1Data []) = .ok ⟨[⟨"T", [⟨"Hi", [9]⟩]⟩], [], ""⟩ ∧
      (9 : Int) ∈ (⟨"Hi", [9]⟩ : Para).sources ∧
      (⟨[⟨"T", [⟨"Hi", [9]⟩]⟩], [], ""⟩ : NormDoc).footnotes = [] := by
  exact ⟨rfl, by decide, rfl⟩

/-- C1 (amended): `normalize_from_json` does not consult the footnote table
when collecting a paragraph's citations — for every footnote list the
paragraph citing id 9 keeps 9 in its citation set, whatever footnote table
comes out; and `build_html` renders the dangling id as a bare superscript
marker (`<sup>9</sup>` with an empty footnote list). -/
theorem c1_dangling_citation_retained (fns : List JVal) (ftab : List Footnote)
    (h : normFootnotes fns 1 = .ok ftab) :
    normalize_from_json (c1Data fns) = .ok ⟨[⟨"T", [⟨"Hi", [9]⟩]⟩], ftab, ""⟩ ∧
      hasSub (build_html [⟨"T", [⟨"Hi", [9]⟩]⟩] []) "<sup>9</sup>" = true := by
  refine ⟨?_, rfl⟩
  cases fns with
  | nil =>
    have h0 : (Except.ok [] : Except String (List Footnote)) = .ok ftab := h
    cases h0
    rfl
  | cons f rest =>
    have step : normalize_from_json (c1Data (f :: rest)) =
        (match normFootnotes (f :: rest) 1 with
         | .error e => .error e
         | .ok footnotes => .ok ⟨[⟨"T", [⟨"Hi", [9]⟩]⟩], footnotes, ""⟩) := rfl
    rw [step, h]

/-- C1, witness: the amended statement at the empty footnote list. -/
theorem c1_witness :
    normFootnotes [] 1 = .ok [] ∧
      (normalize_from_json (c1Data []) = .ok ⟨[⟨"T", [⟨"Hi", [9]⟩]⟩], [], ""⟩ ∧
        hasSub (build_html [⟨"T", [⟨"Hi", [9]⟩]⟩] []) "<sup>9</sup>" = true) :=
  ⟨rfl, c1_dangling_citation_retained [] [] rfl⟩

/-- Input with one section whose single paragraph entry has the
`{sentences: [...]}` shape (no `text` key). -/
def c6Input (v : JVal) : List (String × JVal) :=
  [("sections", .arr [.obj
    [("title", .str "A"), ("paragraphs", .arr [.obj [("sentences", v)]])]])]

/-- C6, counterexample: a `{sentences:[...]}`-shaped paragraph with two
sentences produces no paragraph at all — in particular not the space-joined
paragraph "Hello world" with the citation union {1, 2}. -/
theorem c6_counterexample :
    normalize_from_json (c6Input (.arr
        [ .obj [("text", .str "Hello"), ("sources", .arr [.int 1])]
        , .obj [("text", .str "world"), ("sources", .arr [.int 2])] ]))
      = .ok ⟨[⟨"A", []⟩], [], ""⟩ ∧
      ([] : List Para) ≠ [⟨"Hello world", [1, 2]⟩] := by
  exact ⟨rfl, by decide⟩

/-- C6 (amended): a paragraph entry shaped `{sentences:[...]}` is dropped
entirely, whatever the sentence list holds: `normalize_from_json` only
recognizes string paragraphs and dicts with a truthy `text` field, so such
an entry contributes no paragraph and no citations to the section. -/
theorem c6_sentences_shape_dropped (v : JVal) :
    normalize_from_json (c6Input v) = .ok ⟨[⟨"A", []⟩], [], ""⟩ := rfl

/-- C4, counterexample: with no sections, no spoken text and no transcript,
the result is not a zero-section document — it has the five standard
headings (with zero paragraphs). -/
theorem c4_counterexample :
    composeSections [] none = .ok (HEADINGS.map (fun t => ⟨t, []⟩)) ∧
      (HEADINGS.map (fun t => (⟨t, []⟩ : Sec))).length = 5 ∧ (5 : Nat) ≠ 0 := by
  exact ⟨rfl, rfl, by decide⟩

/-- C4 (amended): when the normalized sections contain no paragraph, the
spoken field is empty and no transcript file is available, the composer
returns — without raising — a document whose sections are exactly the five
standard headings, each with zero paragraphs (five sections, not zero). -/
theorem c4_all_empty_yields_five_empty_headings (data : List (String × JVal))
    (nd : NormDoc) (h1 : normalize_from_json data = .ok nd)
    (h2 : ∀ sec ∈ nd.sections, sec.paragraphs = []) (h3 : nd.spoken = "") :
    composeSections data none = .ok (HEADINGS.map (fun t => ⟨t, []⟩)) := by
  have hany : nd.sections.any (fun sec => 0 < sec.paragraphs.length) = false := by
    rw [List.any_eq_false]
    intro sec hsec
    rw [h2 sec hsec]
    simp
  simp [composeSections, h1, hany, effectiveSpoken, h3, paragraphs_from_free_text,
    distribute_across_headings]

/-- C4, witness: the amended statement at the fully empty payload. -/
theorem c4_witness :
    normalize_from_json ([] : List (String × JVal)) = .ok ⟨[], [], ""⟩ ∧
      composeSections [] none = .ok (HEADINGS.map (fun t => ⟨t, []⟩)) :=
  ⟨rfl, c4_all_empty_yields_five_empty_headings [] ⟨[], [], ""⟩ rfl
    (by intro sec hsec; simp at hsec) rfl⟩

/-- C5, counterexample: for the spoken text "One. Two. Three.\n\nFour. Five."
the composer does return 2 paragraphs, but their texts are the regrouped
sentences "One. Two. Three. Four." and "Five.", not the two blank-line
blocks. -/
theorem c5_counterexample :
    composeSections [("spoken", .str "One. Two. Three.\n\nFour. Five.")] none
        = .ok (distribute_across_headings ["One. Two. Three. Four.", "Five."]) ∧
      paragraphTexts (distribute_across_headings ["One. Two. Three. Four.", "Five."])
        = ["One. Two. Three. Four.", "Five."] ∧
      (["One. Two. Three. Four.", "Five."] : List String)
        ≠ ["One. Two. Three.", "Four. Five."] := by
  refine ⟨rfl, rfl, by decide⟩

/-- C5 (amended): the spoken text "One. Two. Three.\n\nFour. Five." yields
exactly 2 paragraphs, but they are the sentence-regrouped
"One. Two. Three. Four." and "Five.": two blank-line blocks are fewer than
the 3 required to keep blocks, so the text is re-split into sentences and
regrouped 4 per paragraph. -/
theorem c5_two_blocks_resplit_into_sentence_groups :
    paragraphs_from_free_text "One. Two. Three.\n\nFour. Five."
        = ["One. Two. Three. Four.", "Five."] ∧
      (paragraphs_from_free_text "One. Two. Three.\n\nFour. Five.").length = 2 := by
  exact ⟨rfl, rfl⟩

/-- `getD` after `set`: the written slot holds the new value (when in
range), every other slot is unchanged. -/
theorem getD_set_eval (b : List (List Para)) (m j : Nat) (v : List Para) :
    (b.set m v).getD j [] = if m = j ∧ m < b.length then v else b.getD j [] := by
  rw [List.getD_eq_getElem?_getD, List.getElem?_set]
  by_cases h1 : m = j
  · subst h1
    by_cases h2 : m < b.length
    · simp [h2]
    · rw [if_pos rfl, if_neg h2, if_neg (by tauto)]
      rw [List.getD_eq_getElem?_getD, List.getElem?_eq_none (Nat.le_of_not_lt h2)]
  · simp [h1, List.getD_eq_getElem?_getD]

/-- Filling buckets never changes how many buckets there are. -/
theorem length_fillBuckets (ps : List String) (i : Nat) (b : List (List Para)) :
    (fillBuckets ps i b).length = b.length := by
  induction ps generalizing i b with
  | nil => rfl
  | cons p rest ih => rw [fillBuckets, ih, List.length_set]

/-- Filling buckets only appends: whatever a bucket already holds stays. -/
theorem mem_fillBuckets_mono (ps : List String) (i : Nat) (b : List (List Para))
    (j : Nat) (x : Para) (hx : x ∈ b.getD j []) :
    x ∈ (fillBuckets ps i b).getD j [] := by
  induction ps generalizing i b with
  | nil => exact hx
  | cons p rest ih =>
    rw [fillBuckets]
    apply ih
    rw [getD_set_eval]
    by_cases hc : i % HEADINGS.length = j ∧ i % HEADINGS.length < b.length
    · rw [if_pos hc]
      rw [← hc.1] at hx
      exact List.mem_append_left _ hx
    · rw [if_neg hc]
      exact hx

/-- Paragraph `k` of the remaining list lands in bucket `(i + k) mod 5`,
carrying an empty source list. -/
theorem mem_fillBuckets_place (ps : List String) (i : Nat) (b : List (List Para))
    (hb : b.length = HEADINGS.length) :
    ∀ k (hk : k < ps.length),
      (⟨ps.get ⟨k, hk⟩, []⟩ : Para)
        ∈ (fillBuckets ps i b).getD ((i + k) % HEADINGS.length) [] := by
  induction ps generalizing i b with
  | nil => intro k hk; simp at hk
  | cons p rest ih =>
    intro k hk
    rw [fillBuckets]
    cases k with
    | zero =>
      apply mem_fillBuckets_mono
      rw [Nat.add_zero, getD_set_eval]
      rw [if_pos ⟨rfl, by rw [hb]; exact Nat.mod_lt _ (by decide)⟩]
      exact List.mem_append_right _ (List.mem_singleton.mpr rfl)
    | succ k' =>
      have hk' : k' < rest.length := Nat.lt_of_succ_lt_succ hk
      have := ih (i + 1)
        (b.set (i % HEADINGS.length) ((b.getD (i % HEADINGS.length) []) ++ [⟨p, []⟩]))
        (by rw [List.length_set, hb]) k' hk'
      rw [List.get_cons_succ]
      rw [show i + (k' + 1) = (i + 1) + k' by omega]
      exact this

/-- Slots of a `replicate`-of-`[]` bucket list are empty. -/
theorem getD_replicate_nil (n j : Nat) :
    (List.replicate n ([] : List Para)).getD j [] = [] := by
  rw [List.getD_eq_getElem?_getD, List.getElem?_replicate]
  by_cases h : j < n <;> simp [h]

/-- Every paragraph placed by the bucket loop has an empty source list,
provided the starting buckets do. -/
theorem sources_fillBuckets (ps : List String) (i : Nat) (b : List (List Para))
    (hinv : ∀ j, ∀ x ∈ b.getD j [], x.sources = []) :
    ∀ j, ∀ x ∈ (fillBuckets ps i b).getD j [], x.sources = [] := by
  induction ps generalizing i b with
  | nil => exact hinv
  | cons p rest ih =>
    rw [fillBuckets]
    apply ih
    intro j x hx
    rw [getD_set_eval] at hx
    by_cases hc : i % HEADINGS.length = j ∧ i % HEADINGS.length < b.length
    · rw [if_pos hc] at hx
      rcases List.mem_append.mp hx with h1 | h2
      · exact hinv _ _ h1
      · rw [List.mem_singleton.mp h2]
    · rw [if_neg hc] at hx
      exact hinv _ _ hx

/-- Indexing the heading/bucket zip of `distribute_across_headings`. -/
theorem getD_range_headings_map (f : Nat → Sec) (j : Nat) (hj : j < HEADINGS.length)
    (d : Sec) : ((List.range HEADINGS.length).map f).getD j d = f j := by
  have hj5 : j < 5 := hj
  interval_cases j <;> rfl

/-- The distributed document always carries the five standard headings, in
order. -/
theorem distribute_titles (paras : List String) :
    (distribute_across_headings paras).map Sec.title = HEADINGS := by
  cases paras with
  | nil => rfl
  | cons p rest =>
    simp only [distribute_across_headings, List.isEmpty_cons, Bool.false_eq_true,
      if_false, List.map_map]
    rfl

/-- The distributed document always has exactly five sections. -/
theorem distribute_length (paras : List String) :
    (distribute_across_headings paras).length = 5 := by
  cases paras with
  | nil => rfl
  | cons p rest =>
    simp only [distribute_across_headings, List.isEmpty_cons, Bool.false_eq_true,
      if_false, List.length_map, List.length_range]
    rfl

/-- Every paragraph of the distributed document has an empty citation set. -/
theorem distribute_sources (paras : List String) :
    ∀ sec ∈ distribute_across_headings paras, ∀ p ∈ sec.paragraphs, p.sources = [] := by
  cases paras with
  | nil =>
    intro sec hsec p hp
    simp only [distribute_across_headings, List.isEmpty_nil, if_true, List.mem_map] at hsec
    obtain ⟨t, -, rfl⟩ := hsec
    cases hp
  | cons p0 rest =>
    intro sec hsec p hp
    simp only [distribute_across_headings, List.isEmpty_cons, Bool.false_eq_true, if_false,
      List.mem_map, List.mem_range] at hsec
    obtain ⟨i, hi, rfl⟩ := hsec
    refine sources_fillBuckets (p0 :: rest) 0 (List.replicate HEADINGS.length []) ?_ i p ?_
    · intro j x hx
      rw [getD_replicate_nil] at hx
      cases hx
    · exact hp

/-- Fallback paragraph `i` (0-based) is placed in section `i mod 5`. -/
theorem distribute_place (paras : List String) :
    ∀ i (hi : i < paras.length),
      (⟨paras.get ⟨i, hi⟩, []⟩ : Para)
        ∈ ((distribute_across_headings paras).getD (i % 5) ⟨"", []⟩).paragraphs := by
  cases paras with
  | nil => intro i hi; simp at hi
  | cons p0 rest =>
    intro i hi
    have h5 : i % 5 < HEADINGS.length := Nat.mod_lt _ (by decide)
    simp only [distribute_across_headings, List.isEmpty_cons, Bool.false_eq_true, if_false]
    rw [getD_range_headings_map _ _ h5]
    have := mem_fillBuckets_place (p0 :: rest) 0 (List.replicate HEADINGS.length [])
      (by simp) i hi
    rw [Nat.zero_add] at this
    exact this

/-- C10: whenever the normalized sections contain no paragraph, the
composer takes the free-text fallback: the result is the distribution of
the fallback paragraphs, it has exactly the five standard headings in
order, fallback paragraph `i` (0-based) is placed in section `i mod 5`,
and every such paragraph carries an empty citation set. -/
theorem c10_fallback_distribution (data : List (String × JVal)) (txt : Option String)
    (nd : NormDoc) (h1 : normalize_from_json data = .ok nd)
    (h2 : ∀ sec ∈ nd.sections, sec.paragraphs = []) :
    ∃ paras,
      paras = paragraphs_from_free_text (effectiveSpoken nd txt) ∧
      composeSections data txt = .ok (distribute_across_headings paras) ∧
      (distribute_across_headings paras).map Sec.title = HEADINGS ∧
      (distribute_across_headings paras).length = 5 ∧
      (∀ sec ∈ distribute_across_headings paras, ∀ p ∈ sec.paragraphs, p.sources = []) ∧
      (∀ i (hi : i < paras.length),
        (⟨paras.get ⟨i, hi⟩, []⟩ : Para)
          ∈ ((distribute_across_headings paras).getD (i % 5) ⟨"", []⟩).paragraphs) := by
  refine ⟨paragraphs_from_free_text (effectiveSpoken nd txt), rfl, ?_,
    distribute_titles _, distribute_length _, distribute_sources _, distribute_place _⟩
  have hany : nd.sections.any (fun sec => 0 < sec.paragraphs.length) = false := by
    rw [List.any_eq_false]
    intro sec hsec
    rw [h2 sec hsec]
    simp
  simp [composeSections, h1, hany]

/-- C10, witness: the fallback path at the concrete payload whose spoken
text is "Alpha." (no sections at all). -/
theorem c10_witness :
    normalize_from_json [("spoken", JVal.str "Alpha.")] = .ok ⟨[], [], "Alpha."⟩ ∧
      (∃ paras,
        paras = paragraphs_from_free_text (effectiveSpoken ⟨[], [], "Alpha."⟩ none) ∧
        composeSections [("spoken", JVal.str "Alpha.")] none
          = .ok (distribute_across_headings paras) ∧
        (distribute_across_headings paras).map Sec.title = HEADINGS ∧
        (distribute_across_headings paras).length = 5 ∧
        (∀ sec ∈ distribute_across_headings paras, ∀ p ∈ sec.paragraphs, p.sources = []) ∧
        (∀ i (hi : i < paras.length),
          (⟨paras.get ⟨i, hi⟩, []⟩ : Para)
            ∈ ((distribute_across_headings paras).getD (i % 5) ⟨"", []⟩).paragraphs)) :=
  ⟨rfl, c10_fallback_distribution [("spoken", JVal.str "Alpha.")] none ⟨[], [], "Alpha."⟩
    rfl (by intro sec hsec; cases hsec)⟩

/-- Field values on which `(v or "").strip()` cannot raise within the
shapes of the spec: absent (`None`) or a string. -/
def safeStrField : JVal → Bool
  | .null => true
  | .str _ => true
  | _ => false

/-- Values over which `for x in (v or [])` iterates without raising and
whose elements satisfy `P`: absent, a string (its characters are
one-character strings), a dict (its keys are strings), the integer 0
(falsy, replaced by `[]`), or an array of `P`-elements. -/
def wsIterable (P : JVal → Bool) : JVal → Bool
  | .arr xs => xs.all P
  | .int n => n == 0
  | _ => true

/-- Paragraph entries on which the paragraph loop cannot raise: non-dicts
(strings are kept, the rest skipped) and dicts whose `text` is
absent-or-string and whose `sources` is iterable. -/
def wsPara : JVal → Bool
  | .obj fs => safeStrField (pyGet fs "text") ∧ wsIterable (fun _ => true) (pyGet fs "sources")
  | _ => true

/-- Section entries on which the section loop cannot raise: non-dicts and
dicts with absent-or-string `title` and iterable well-shaped `paragraphs`. -/
def wsSection : JVal → Bool
  | .obj fs => safeStrField (pyGet fs "title") ∧ wsIterable wsPara (pyGet fs "paragraphs")
  | _ => true

/-- Footnote entries on which the footnote loop cannot raise. -/
def wsFootnote : JVal → Bool
  | .obj fs => safeStrField (pyGet fs "title") ∧ safeStrField (pyGet fs "url")
  | _ => true

/-- The Section-shaped / string-shaped input domain of the spec's totality
property: `spoken` absent-or-string, `footnotes` and `sections` iterable
with well-shaped entries. -/
def wellShaped (data : List (String × JVal)) : Bool :=
  safeStrField (pyGet data "spoken") ∧
    wsIterable wsFootnote (pyGet data "footnotes") ∧
    wsIterable wsSection (pyGet data "sections")

/-- `(v or "").strip()` returns normally on safe field values. -/
theorem strip_ok_of_safe (v : JVal) (h : safeStrField v = true) :
    ∃ s, pyStrAttrStrip (pyOrEmptyStr v) = .ok s := by
  cases v with
  | null => exact ⟨"", rfl⟩
  | str s =>
    by_cases hs : s = ""
    · subst hs; exact ⟨"", rfl⟩
    · exact ⟨pyStripStr s, by simp [pyOrEmptyStr, truthy, hs, pyStrAttrStrip]⟩
  | int n => simp [safeStrField] at h
  | arr xs => simp [safeStrField] at h
  | obj fs => simp [safeStrField] at h

/-- `for x in (v or [])` yields a list of `P`-elements on `wsIterable P`
values, provided `P` holds of every string. -/
theorem iter_ok_of_ws (P : JVal → Bool) (hP : ∀ s, P (.str s) = true) (v : JVal)
    (h : wsIterable P v = true) :
    ∃ xs, pyIter (pyOrEmptyList v) = .ok xs ∧ xs.all P = true := by
  cases v with
  | null => exact ⟨[], rfl, rfl⟩
  | str s =>
    by_cases hs : s = ""
    · subst hs; exact ⟨[], rfl, rfl⟩
    · refine ⟨s.data.map (fun c => .str (String.mk [c])), ?_, ?_⟩
      · simp [pyOrEmptyList, truthy, hs, pyIter]
      · rw [List.all_eq_true]
        intro x hx
        obtain ⟨c, -, rfl⟩ := List.mem_map.mp hx
        exact hP _
  | int n =>
    have hn : n = 0 := by simpa [wsIterable] using h
    subst hn
    exact ⟨[], rfl, rfl⟩
  | arr xs =>
    cases xs with
    | nil => exact ⟨[], rfl, rfl⟩
    | cons x rest =>
      refine ⟨x :: rest, ?_, by simpa [wsIterable] using h⟩
      simp [pyOrEmptyList, truthy, pyIter]
  | obj fs =>
    cases fs with
    | nil => exact ⟨[], rfl, rfl⟩
    | cons f rest =>
      refine ⟨(f :: rest).map (fun p => .str p.1), ?_, ?_⟩
      · simp [pyOrEmptyList, truthy, pyIter]
      · rw [List.all_eq_true]
        intro x hx
        obtain ⟨p, -, rfl⟩ := List.mem_map.mp hx
        exact hP _

/-- The footnote loop returns normally on well-shaped footnote entries. -/
theorem normFootnotes_ok (xs : List JVal) (h : xs.all wsFootnote = true) :
    ∀ i, ∃ l, normFootnotes xs i = .ok l := by
  induction xs with
  | nil => exact fun i => ⟨[], rfl⟩
  | cons x rest ih =>
    intro i
    rw [List.all_cons, Bool.and_eq_true] at h
    obtain ⟨tail, htail⟩ := ih h.2 (i + 1)
    cases x with
    | obj fs =>
      have hx : safeStrField (pyGet fs "title") = true
          ∧ safeStrField (pyGet fs "url") = true := by
        simpa [wsFootnote] using h.1
      obtain ⟨ttl, httl⟩ := strip_ok_of_safe _ hx.1
      obtain ⟨url, hurl⟩ := strip_ok_of_safe _ hx.2
      by_cases hu : url = ""
      · subst hu
        refine ⟨tail, ?_⟩
        simp [normFootnotes, httl, hurl, htail]
      · refine ⟨⟨(match pyGet fs "id" with | .int n => n | _ => Int.ofNat i), ttl, url⟩
          :: tail, ?_⟩
        simp [normFootnotes, httl, hurl, htail, hu]
    | null => exact ⟨tail, htail⟩
    | str s => exact ⟨tail, htail⟩
    | int n => exact ⟨tail, htail⟩
    | arr ys => exact ⟨tail, htail⟩

/-- `parseSources` returns normally on iterable source values. -/
theorem parseSources_ok (v : JVal) (h : wsIterable (fun _ => true) v = true) :
    ∃ srcs, parseSources v = .ok srcs := by
  obtain ⟨xs, hxs, -⟩ := iter_ok_of_ws (fun _ => true) (fun _ => rfl) v h
  exact ⟨(xs.filter pyStrIsDigit).map pyIntOfDigit, by simp [parseSources, hxs]⟩

/-- The paragraph loop returns normally on well-shaped entries, and every
paragraph it keeps has non-empty text. -/
theorem normParas_ok (xs : List JVal) (h : xs.all wsPara = true) :
    ∃ l, normParas xs = .ok l ∧ ∀ p ∈ l, p.text ≠ "" := by
  induction xs with
  | nil => exact ⟨[], rfl, by simp⟩
  | cons x rest ih =>
    rw [List.all_cons, Bool.and_eq_true] at h
    obtain ⟨l, hl, hinv⟩ := ih h.2
    cases x with
    | str s =>
      by_cases hs : pyStripStr s = ""
      · refine ⟨l, ?_, hinv⟩
        simp [normParas, hl, hs]
      · refine ⟨⟨pyStripStr s, []⟩ :: l, ?_, ?_⟩
        · simp [normParas, hl, hs]
        · intro p hp
          rcases List.mem_cons.mp hp with hp1 | hp2
          · rw [hp1]; exact hs
          · exact hinv p hp2
    | obj fs =>
      have hx : safeStrField (pyGet fs "text") = true
          ∧ wsIterable (fun _ => true) (pyGet fs "sources") = true := by
        simpa [wsPara] using h.1
      obtain ⟨t, ht⟩ := strip_ok_of_safe _ hx.1
      obtain ⟨srcs, hsrcs⟩ := parseSources_ok _ hx.2
      by_cases hte : t = ""
      · subst hte
        refine ⟨l, ?_, hinv⟩
        simp [normParas, ht, hsrcs, hl]
      · refine ⟨⟨t, srcs⟩ :: l, ?_, ?_⟩
        · simp [normParas, ht, hsrcs, hl, hte]
        · intro p hp
          rcases List.mem_cons.mp hp with hp1 | hp2
          · rw [hp1]; exact hte
          · exact hinv p hp2
    | null => exact ⟨l, hl, hinv⟩
    | int n => exact ⟨l, hl, hinv⟩
    | arr ys => exact ⟨l, hl, hinv⟩

/-- The section loop returns normally on well-shaped entries, and every
paragraph of every returned section has non-empty text. -/
theorem normSections_ok (xs : List JVal) (h : xs.all wsSection = true) :
    ∃ l, normSections xs = .ok l ∧ ∀ sec ∈ l, ∀ p ∈ sec.paragraphs, p.text ≠ "" := by
  induction xs with
  | nil => exact ⟨[], rfl, by simp⟩
  | cons x rest ih =>
    rw [List.all_cons, Bool.and_eq_true] at h
    obtain ⟨l, hl, hinv⟩ := ih h.2
    cases x with
    | str s =>
      refine ⟨⟨pyStripStr s, []⟩ :: l, ?_, ?_⟩
      · simp [normSections, hl]
      · intro sec hsec p hp
        rcases List.mem_cons.mp hsec with hs1 | hs2
        · rw [hs1] at hp; cases hp
        · exact hinv sec hs2 p hp
    | obj fs =>
      have hx : safeStrField (pyGet fs "title") = true
          ∧ wsIterable wsPara (pyGet fs "paragraphs") = true := by
        simpa [wsSection] using h.1
      obtain ⟨title, htitle⟩ := strip_ok_of_safe _ hx.1
      obtain ⟨ps, hps, hpall⟩ := iter_ok_of_ws wsPara (fun _ => rfl) _ hx.2
      obtain ⟨paras, hparas, hpinv⟩ := normParas_ok ps hpall
      refine ⟨⟨title, paras⟩ :: l, ?_, ?_⟩
      · simp [normSections, htitle, hps, hparas, hl]
      · intro sec hsec p hp
        rcases List.mem_cons.mp hsec with hs1 | hs2
        · rw [hs1] at hp; exact hpinv p hp
        · exact hinv sec hs2 p hp
    | null => exact ⟨l, hl, hinv⟩
    | int n => exact ⟨l, hl, hinv⟩
    | arr ys => exact ⟨l, hl, hinv⟩

/-- C7: on every Section-shaped or string-shaped payload the normalizer
returns normally (no exception), and every paragraph of the returned
document has non-empty text. -/
theorem c7_normalizer_total (data : List (String × JVal)) (h : wellShaped data = true) :
    ∃ nd, normalize_from_json data = .ok nd ∧
      ∀ sec ∈ nd.sections, ∀ p ∈ sec.paragraphs, p.text ≠ "" := by
  have hw : safeStrField (pyGet data "spoken") = true
      ∧ wsIterable wsFootnote (pyGet data "footnotes") = true
      ∧ wsIterable wsSection (pyGet data "sections") = true := by
    simpa [wellShaped] using h
  obtain ⟨spoken, hsp⟩ := strip_ok_of_safe _ hw.1
  obtain ⟨fxs, hfx, hfall⟩ := iter_ok_of_ws wsFootnote (fun _ => rfl) _ hw.2.1
  obtain ⟨ftab, hft⟩ := normFootnotes_ok fxs hfall 1
  obtain ⟨sxs, hsx, hsall⟩ := iter_ok_of_ws wsSection (fun _ => rfl) _ hw.2.2
  obtain ⟨secs, hsecs, hinv⟩ := normSections_ok sxs hsall
  exact ⟨⟨secs, ftab, spoken⟩,
    by simp [normalize_from_json, hsp, hfx, hft, hsx, hsecs], hinv⟩

/-- A Section-shaped payload exercising all safe paragraph shapes: a bare
string section, a dict section with a string paragraph and a dict paragraph
whose sources mix integers, digit strings and `None`. -/
def c7Data : List (String × JVal) :=
  [ ("sections", .arr
      [ .str "Overview"
      , .obj [ ("title", .str "B")
             , ("paragraphs", .arr
                 [ .str "  Hi there.  "
                 , .obj [("text", .str "Yo"),
                         ("sources", .arr [.int 1, .str "2", .null])] ]) ] ])
  , ("spoken", .str "fallback") ]

/-- C7, witness: the totality statement at the concrete payload. -/
theorem c7_witness :
    wellShaped c7Data = true ∧
      (∃ nd, normalize_from_json c7Data = .ok nd ∧
        ∀ sec ∈ nd.sections, ∀ p ∈ sec.paragraphs, p.text ≠ "") :=
  ⟨by decide, c7_normalizer_total c7Data (by decide)⟩
